import Mathlib

/-!
# Verification of the multi-account session orchestrator (`Main::Domain`)

Shallow embedding of `Telegram/SourceFiles/main/main_domain.cpp`:
the account registry, activation controller, badge aggregator, passcode
cleanup and the deferred-scheduling latches, as pure functions on an
explicit `DomainState`.  Fallible operations (C++ `Expects` / `Assert` /
`Unexpected`, and dereferences of the active-account pointer) are
modelled with `Option`: `none` is a fatal precondition violation.

Observable reactive streams are modelled by event counters on the state
(`activeChangedFired` counts firings of `_active.changes()`,
`unreadBadgeChangedFired` counts `_unreadBadgeChanges.fire`,
`writeScheduleRequests` counts calls of `scheduleWriteAccounts`), and
the deferred-call machinery by the boolean latches of the source plus a
count of queued callbacks.
-/

namespace Main

/-- `MTP::Environment`: the backend-cluster tag of a config. -/
inductive Env where
  | production
  | test
deriving DecidableEq, Repr

/-- `MTP::Config`, treated as an opaque cloneable value: the environment it
targets plus an opaque payload distinguishing different config values.
Cloning a config (`std::make_unique<MTP::Config>(config)`) copies the value,
so a clone is modelled as the value itself. -/
structure Config where
  environment : Env
  payload : Nat
deriving DecidableEq, Repr

/-- `std::make_unique<MTP::Config>(environment)`: the freshly constructed
default config for an environment. -/
def Config.ofEnvironment (env : Env) : Config :=
  { environment := env, payload := 0 }

/-- One `Main::Account`, with the fields of the account (and of its session,
meaningful only while `sessionLive` is true) that `Domain` reads.  `id` is the
object identity (the C++ pointer), used for the pointer comparisons
`account.get() == _active.current()` etc. -/
structure Account where
  id : Nat
  environment : Env
  config : Config
  sessionLive : Bool
  unreadCount : Nat
  muted : Bool
deriving DecidableEq, Repr

/-- `Domain::AccountWithIndex`: a registry entry. -/
structure AccountWithIndex where
  index : Nat
  account : Account
deriving DecidableEq, Repr

/-- The state of a `Main::Domain`, with event counters for its observable
outputs and callback counters for the two deferred-call sites. -/
structure DomainState where
  /-- `_accounts`: the insertion-ordered registry. -/
  accounts : List AccountWithIndex
  /-- `_active`: the id of the active account (`none` = `nullptr`). -/
  active : Option Nat
  /-- `_accountToActivate`: the preferred index, `-1` when unset. -/
  accountToActivate : Int
  /-- whether `Global::LocalPasscode()` currently holds a passcode. -/
  passcodeSet : Bool
  /-- number of `Local::reset()` calls performed so far. -/
  localResets : Nat
  /-- `Core::App().fallbackProductionConfig()`, the process-wide fallback. -/
  fallbackProductionConfig : Config
  /-- `_unreadBadge`. -/
  unreadBadge : Nat
  /-- `_unreadBadgeMuted`. -/
  unreadBadgeMuted : Bool
  /-- `_unreadBadgeUpdateScheduled`: the badge-recompute latch. -/
  unreadBadgeUpdateScheduled : Bool
  /-- `_writeAccountsScheduled`: the persistence-write latch. -/
  writeAccountsScheduled : Bool
  /-- callbacks queued by `postponeCall` for the badge recompute. -/
  pendingBadgeCallbacks : Nat
  /-- callbacks queued by `crl::on_main` for the accounts write. -/
  pendingWriteCallbacks : Nat
  /-- firings of `_active.changes()`. -/
  activeChangedFired : Nat
  /-- firings of `_unreadBadgeChanges`. -/
  unreadBadgeChangedFired : Nat
  /-- calls of `scheduleWriteAccounts()` (absorbed or not). -/
  writeScheduleRequests : Nat
deriving DecidableEq, Repr

namespace Domain

/-- `Domain::started()`: the registry is non-empty. -/
def started (s : DomainState) : Bool :=
  !s.accounts.isEmpty

/-- Resolve `_active.current()` against the registry (the non-owning pointer
is modelled as a handle looked up by account identity). -/
def activeAccount (s : DomainState) : Option Account :=
  s.active.bind fun aid =>
    (s.accounts.find? fun e => e.account.id = aid).map fun e => e.account

/-- `Domain::scheduleWriteAccounts()`: a latched deferred write.  The request
counter records the call itself; the callback is queued only when the latch
was clear. -/
def scheduleWriteAccounts (s : DomainState) : DomainState :=
  let s1 := { s with writeScheduleRequests := s.writeScheduleRequests + 1 }
  if s1.writeAccountsScheduled then s1
  else { s1 with
    writeAccountsScheduled := true
    pendingWriteCallbacks := s1.pendingWriteCallbacks + 1 }

/-- `Domain::scheduleUpdateUnreadBadge()`: a latched deferred recompute. -/
def scheduleUpdateUnreadBadge (s : DomainState) : DomainState :=
  if s.unreadBadgeUpdateScheduled then s
  else { s with
    unreadBadgeUpdateScheduled := true
    pendingBadgeCallbacks := s.pendingBadgeCallbacks + 1 }

/-- The loop body of `Domain::updateUnreadBadge()`: fold the unread counts
and mutedness of the accounts with a live session onto the accumulators,
exactly as the source loop does. -/
def unreadBadgeLoop : List AccountWithIndex → Nat → Bool → Nat × Bool
  | [], count, muted => (count, muted)
  | e :: rest, count, muted =>
    if e.account.sessionLive then
      unreadBadgeLoop rest (count + e.account.unreadCount)
        (if !e.account.muted then false else muted)
    else
      unreadBadgeLoop rest count muted

/-- `Domain::updateUnreadBadge()`: recompute the badge from scratch and fire
the change event unconditionally. -/
def updateUnreadBadge (s : DomainState) : DomainState :=
  let r := unreadBadgeLoop s.accounts 0 true
  { s with
    unreadBadge := r.1
    unreadBadgeMuted := r.2
    unreadBadgeChangedFired := s.unreadBadgeChangedFired + 1 }

/-- The deferred body posted by `scheduleUpdateUnreadBadge`: it first resets
the latch, then runs `updateUnreadBadge`. -/
def runBadgeCallback (s : DomainState) : DomainState :=
  updateUnreadBadge
    { s with
      unreadBadgeUpdateScheduled := false
      pendingBadgeCallbacks := s.pendingBadgeCallbacks - 1 }

/-- `Domain::activate(account)`: no-op when already active; otherwise find
the registry entry of the account (`Assert(i != end(_accounts))` is `none`),
remember its index as the preferred one, set `_active` (which fires its
change stream once, the value being different), and schedule a persistence
write exactly when the preferred index changed. -/
def activate (s : DomainState) (account : Account) : Option DomainState :=
  if s.active = some account.id then
    some s
  else
    match s.accounts.find? fun e => e.account.id = account.id with
    | none => none
    | some i =>
      let s1 := { s with
        accountToActivate := (i.index : Int)
        active := some account.id
        activeChangedFired := s.activeChangedFired + 1 }
      some (if s.accountToActivate ≠ (i.index : Int) then
        scheduleWriteAccounts s1 else s1)

/-- `Domain::activateAuthedAccount()`: requires `started()`; no-op when the
active account still has a live session, otherwise activate the first
account in registry order with a live session, if any. -/
def activateAuthedAccount (s : DomainState) : Option DomainState :=
  if !started s then none
  else
    match activeAccount s with
    | none => none
    | some act =>
      if act.sessionLive then
        some s
      else
        match s.accounts.find? fun e => e.account.sessionLive with
        | some e => activate s e.account
        | none => some s

/-- `Domain::removePasscodeIfEmpty()`: returns whether the passcode was
removed, together with the new state.  With more than one account, or a live
active session, nothing happens; otherwise `Local::reset()` runs first, and
the passcode is cleared only if one was set. -/
def removePasscodeIfEmpty (s : DomainState) : Option (Bool × DomainState) :=
  if s.accounts.length ≠ 1 then
    some (false, s)
  else
    match activeAccount s with
    | none => none
    | some act =>
      if act.sessionLive then
        some (false, s)
      else
        if !s.passcodeSet then
          some (false, { s with localResets := s.localResets + 1 })
        else
          some (true, { s with
            localResets := s.localResets + 1
            passcodeSet := false })

/-- `Domain::checkForLastProductionConfig(account)`: when the account about
to be removed targets production and no *other* registry member does, push
its config into the process-wide fallback; otherwise leave the fallback. -/
def checkForLastProductionConfig (accounts : List AccountWithIndex)
    (fallback : Config) (account : Account) : Config :=
  if account.environment ≠ Env.production then
    fallback
  else if accounts.any fun e =>
      e.account.id ≠ account.id && e.account.environment = Env.production then
    fallback
  else
    account.config

/-- The erase loop of `Domain::removeRedundantAccounts()`: walk the registry,
keeping the active account and every account with a live session; each
removed account is first shown to `checkForLastProductionConfig` against the
registry as it stands at that moment (entries kept so far plus the not yet
visited ones, the current entry included). -/
def removeRedundantLoop (active : Option Nat) :
    List AccountWithIndex → List AccountWithIndex → Config →
      List AccountWithIndex × Config
  | kept, [], fallback => (kept, fallback)
  | kept, e :: rest, fallback =>
    if active = some e.account.id || e.account.sessionLive then
      removeRedundantLoop active (kept ++ [e]) rest fallback
    else
      removeRedundantLoop active kept rest
        (checkForLastProductionConfig (kept ++ e :: rest) fallback e.account)

/-- `Domain::removeRedundantAccounts()`: requires `started()`; re-run
`activateAuthedAccount()`, erase every non-active account without a live
session (pushing the last production config to the fallback as each removal
demands), then `removePasscodeIfEmpty()`; when that did nothing and the
registry shrank, schedule a persistence write. -/
def removeRedundantAccounts (s : DomainState) : Option DomainState :=
  if !started s then none
  else
    match activateAuthedAccount s with
    | none => none
    | some s1 =>
      match removePasscodeIfEmpty { s1 with
          accounts := (removeRedundantLoop s1.active [] s1.accounts
            s1.fallbackProductionConfig).1
          fallbackProductionConfig := (removeRedundantLoop s1.active []
            s1.accounts s1.fallbackProductionConfig).2 } with
      | none => none
      | some p =>
        if !p.1 && p.2.accounts.length ≠ s.accounts.length then
          some (scheduleWriteAccounts p.2)
        else
          some p.2

/-- `Domain::accountAddedInStorage(accountWithIndex)`: append the entry, but
`Unexpected("Repeated account index.")` — modelled as `none` — when the
index is already present. -/
def accountAddedInStorage (s : DomainState) (e : AccountWithIndex) :
    Option DomainState :=
  if s.accounts.any fun x => x.index = e.index then
    none
  else
    some { s with accounts := s.accounts ++ [e] }

/-- The index-allocation loop of `Domain::add`: starting from `0`, step past
every index already in use; the loop of the source stops at the smallest
free index, which is at most `accounts.length`, so scanning
`0, 1, …, accounts.length` is exact. -/
def firstFreeIndex (accounts : List AccountWithIndex) : Nat :=
  ((List.range (accounts.length + 1)).find? fun i =>
    !accounts.any fun e => e.index = i).getD (accounts.length + 1)

/-- The config-provisioning lambda of `Domain::add`: clone the active
account's config when it targets the requested environment; else the config
of the first registry member that does; else the process-wide fallback for
production, or a fresh default config. -/
def provisionConfig (s : DomainState) (act : Account) (env : Env) : Config :=
  if act.environment = env then
    act.config
  else
    match s.accounts.find? fun e => e.account.environment = env with
    | some e => e.account.config
    | none =>
      if env = Env.production then s.fallbackProductionConfig
      else Config.ofEnvironment env

/-- `Domain::add(environment)`: requires `started()`; provision a config,
allocate the smallest free index, append a fresh account (no session yet)
and return it.  `newId` stands for the address of the freshly allocated
`Account` object. -/
def add (s : DomainState) (env : Env) (newId : Nat) :
    Option (DomainState × Account) :=
  if !started s then none
  else
    match activeAccount s with
    | none => none
    | some act =>
      let config := provisionConfig s act env
      let index := firstFreeIndex s.accounts
      let account : Account :=
        { id := newId, environment := env, config := config
          sessionLive := false, unreadCount := 0, muted := true }
      some ({ s with accounts := s.accounts ++ [⟨index, account⟩] }, account)

end Domain

end Main

open Main Main.Domain

/-! ## Frame lemmas for the scheduling operations -/

@[simp] lemma scheduleWriteAccounts_accounts (s : DomainState) :
    (scheduleWriteAccounts s).accounts = s.accounts := by
  simp only [scheduleWriteAccounts]
  split <;> rfl

@[simp] lemma scheduleWriteAccounts_active (s : DomainState) :
    (scheduleWriteAccounts s).active = s.active := by
  simp only [scheduleWriteAccounts]
  split <;> rfl

@[simp] lemma scheduleWriteAccounts_fallback (s : DomainState) :
    (scheduleWriteAccounts s).fallbackProductionConfig =
      s.fallbackProductionConfig := by
  simp only [scheduleWriteAccounts]
  split <;> rfl

@[simp] lemma scheduleWriteAccounts_accountToActivate (s : DomainState) :
    (scheduleWriteAccounts s).accountToActivate = s.accountToActivate := by
  simp only [scheduleWriteAccounts]
  split <;> rfl

@[simp] lemma scheduleWriteAccounts_activeChangedFired (s : DomainState) :
    (scheduleWriteAccounts s).activeChangedFired = s.activeChangedFired := by
  simp only [scheduleWriteAccounts]
  split <;> rfl

@[simp] lemma scheduleWriteAccounts_passcodeSet (s : DomainState) :
    (scheduleWriteAccounts s).passcodeSet = s.passcodeSet := by
  simp only [scheduleWriteAccounts]
  split <;> rfl

@[simp] lemma scheduleWriteAccounts_localResets (s : DomainState) :
    (scheduleWriteAccounts s).localResets = s.localResets := by
  simp only [scheduleWriteAccounts]
  split <;> rfl

@[simp] lemma scheduleWriteAccounts_unreadBadgeChangedFired (s : DomainState) :
    (scheduleWriteAccounts s).unreadBadgeChangedFired =
      s.unreadBadgeChangedFired := by
  simp only [scheduleWriteAccounts]
  split <;> rfl

@[simp] lemma scheduleWriteAccounts_requests (s : DomainState) :
    (scheduleWriteAccounts s).writeScheduleRequests =
      s.writeScheduleRequests + 1 := by
  simp only [scheduleWriteAccounts]
  split <;> rfl

/-! ## The badge recompute (claim C7) -/

/-- Closed form of the recompute loop: it adds the unread counts of the
live-session entries to the accumulator and conjoins their mutedness. -/
lemma unreadBadgeLoop_eq (l : List AccountWithIndex) (c : Nat) (m : Bool) :
    unreadBadgeLoop l c m =
      (c + ((l.filter fun e => e.account.sessionLive).map
          fun e => e.account.unreadCount).sum,
        m && ((l.filter fun e => e.account.sessionLive).all
          fun e => e.account.muted)) := by
  induction l generalizing c m with
  | nil => simp [unreadBadgeLoop]
  | cons e rest ih =>
    by_cases h : e.account.sessionLive = true
    · have step : unreadBadgeLoop (e :: rest) c m =
          unreadBadgeLoop rest (c + e.account.unreadCount)
            (if !e.account.muted then false else m) := by
        simp [unreadBadgeLoop, h]
      rw [step, ih, List.filter_cons_of_pos (by simpa using h)]
      simp only [List.map_cons, List.sum_cons, List.all_cons, Prod.mk.injEq]
      constructor
      · omega
      · cases hm : e.account.muted <;> cases m <;> simp [hm]
    · have hb : e.account.sessionLive = false := by simpa using h
      have step : unreadBadgeLoop (e :: rest) c m = unreadBadgeLoop rest c m := by
        simp [unreadBadgeLoop, hb]
      rw [step, ih, List.filter_cons_of_neg (by simp [hb])]

/-- C7: every run of `updateUnreadBadge` sets the count to the sum of the
unread counts of exactly the accounts with a live session, sets `allMuted`
to the conjunction of their mutedness (vacuously true with no live
session), and fires the changed event unconditionally. -/
theorem updateUnreadBadge_recomputes (s : DomainState) :
    (updateUnreadBadge s).unreadBadge =
      ((s.accounts.filter fun e => e.account.sessionLive).map
        fun e => e.account.unreadCount).sum ∧
    (updateUnreadBadge s).unreadBadgeMuted =
      ((s.accounts.filter fun e => e.account.sessionLive).all
        fun e => e.account.muted) ∧
    (updateUnreadBadge s).unreadBadgeChangedFired =
      s.unreadBadgeChangedFired + 1 := by
  simp [updateUnreadBadge, unreadBadgeLoop_eq]

/-! ## Behaviour of `activate` -/

/-- Resolved form of `activate` when the account is found in the registry. -/
lemma activate_eq_of_found {s : DomainState} {a : Account} {i : AccountWithIndex}
    (hne : ¬ s.active = some a.id)
    (hf : s.accounts.find? (fun e => e.account.id = a.id) = some i) :
    activate s a = some (
      if s.accountToActivate ≠ (i.index : Int) then
        scheduleWriteAccounts { s with
          accountToActivate := (i.index : Int)
          active := some a.id
          activeChangedFired := s.activeChangedFired + 1 }
      else { s with
        accountToActivate := (i.index : Int)
        active := some a.id
        activeChangedFired := s.activeChangedFired + 1 }) := by
  simp only [activate, if_neg hne, hf]

/-- `activate` leaves the registry itself untouched. -/
lemma activate_accounts_eq {s : DomainState} {a : Account} {s1 : DomainState}
    (h : activate s a = some s1) : s1.accounts = s.accounts := by
  by_cases hne : s.active = some a.id
  · simp only [activate, if_pos hne, Option.some.injEq] at h
    rw [← h]
  · cases hf : s.accounts.find? fun e => e.account.id = a.id with
    | none => simp [activate, if_neg hne, hf] at h
    | some i =>
      rw [activate_eq_of_found hne hf] at h
      rw [← Option.some.inj h]
      split <;> simp

/-- `activate` makes its argument the active account. -/
lemma activate_active_eq {s : DomainState} {a : Account} {s1 : DomainState}
    (h : activate s a = some s1) : s1.active = some a.id := by
  by_cases hne : s.active = some a.id
  · simp only [activate, if_pos hne, Option.some.injEq] at h
    rw [← h, hne]
  · cases hf : s.accounts.find? fun e => e.account.id = a.id with
    | none => simp [activate, if_neg hne, hf] at h
    | some i =>
      rw [activate_eq_of_found hne hf] at h
      rw [← Option.some.inj h]
      split <;> simp

/-- `activate` leaves the fallback production config untouched. -/
lemma activate_fallback_eq {s : DomainState} {a : Account} {s1 : DomainState}
    (h : activate s a = some s1) :
    s1.fallbackProductionConfig = s.fallbackProductionConfig := by
  by_cases hne : s.active = some a.id
  · simp only [activate, if_pos hne, Option.some.injEq] at h
    rw [← h]
  · cases hf : s.accounts.find? fun e => e.account.id = a.id with
    | none => simp [activate, if_neg hne, hf] at h
    | some i =>
      rw [activate_eq_of_found hne hf] at h
      rw [← Option.some.inj h]
      split <;> simp

/-! ## Behaviour of `activateAuthedAccount` and `removePasscodeIfEmpty` -/

/-- `activateAuthedAccount` leaves the registry itself untouched. -/
lemma activateAuthedAccount_accounts_eq {s s1 : DomainState}
    (h : activateAuthedAccount s = some s1) : s1.accounts = s.accounts := by
  unfold activateAuthedAccount at h
  split at h
  · exact absurd h (by simp)
  · split at h
    · exact absurd h (by simp)
    · split at h
      · rw [← Option.some.inj h]
      · split at h
        · exact activate_accounts_eq h
        · rw [← Option.some.inj h]

/-- `activateAuthedAccount` leaves the fallback config untouched. -/
lemma activateAuthedAccount_fallback_eq {s s1 : DomainState}
    (h : activateAuthedAccount s = some s1) :
    s1.fallbackProductionConfig = s.fallbackProductionConfig := by
  unfold activateAuthedAccount at h
  split at h
  · exact absurd h (by simp)
  · split at h
    · exact absurd h (by simp)
    · split at h
      · rw [← Option.some.inj h]
      · split at h
        · exact activate_fallback_eq h
        · rw [← Option.some.inj h]

/-- `removePasscodeIfEmpty` leaves the registry itself untouched. -/
lemma removePasscodeIfEmpty_accounts_eq {s s1 : DomainState} {b : Bool}
    (h : removePasscodeIfEmpty s = some (b, s1)) : s1.accounts = s.accounts := by
  unfold removePasscodeIfEmpty at h
  split at h
  · cases h; rfl
  · split at h
    · exact absurd h (by simp)
    · split at h
      · cases h; rfl
      · split at h
        · cases h; rfl
        · cases h; rfl

/-- `removePasscodeIfEmpty` leaves the fallback config untouched. -/
lemma removePasscodeIfEmpty_fallback_eq {s s1 : DomainState} {b : Bool}
    (h : removePasscodeIfEmpty s = some (b, s1)) :
    s1.fallbackProductionConfig = s.fallbackProductionConfig := by
  unfold removePasscodeIfEmpty at h
  split at h
  · cases h; rfl
  · split at h
    · exact absurd h (by simp)
    · split at h
      · cases h; rfl
      · split at h
        · cases h; rfl
        · cases h; rfl

/-! ## Index uniqueness (claim C2) -/

/-- The indices of the live registry entries. -/
def registryIndices (s : DomainState) : List Nat :=
  s.accounts.map fun e => e.index

/-- Pigeonhole: some index in `0 … accounts.length` is unused. -/
lemma exists_free_index (accounts : List AccountWithIndex) :
    ∃ i ∈ List.range (accounts.length + 1),
      (!accounts.any fun e => e.index = i) = true := by
  by_contra hcon
  push_neg at hcon
  have hsub : List.range (accounts.length + 1) ⊆
      accounts.map fun e => e.index := by
    intro i hi
    have hi2 := hcon i hi
    simp at hi2
    obtain ⟨e, he, hei⟩ := hi2
    exact List.mem_map.mpr ⟨e, he, hei⟩
  have hlen :=
    (List.subperm_of_subset (List.nodup_range _) hsub).length_le
  simp only [List.length_range, List.length_map] at hlen
  omega

/-- The index allocated by `add` is not already used. -/
lemma firstFreeIndex_not_used (accounts : List AccountWithIndex) :
    ∀ e ∈ accounts, e.index ≠ firstFreeIndex accounts := by
  obtain ⟨i, hi, hfree⟩ := exists_free_index accounts
  have hsome : ((List.range (accounts.length + 1)).find? fun i =>
      !accounts.any fun e => e.index = i).isSome := by
    rw [List.find?_isSome]
    exact ⟨i, hi, hfree⟩
  obtain ⟨j, hj⟩ := Option.isSome_iff_exists.mp hsome
  have hpj := List.find?_some hj
  have hval : firstFreeIndex accounts = j := by
    unfold firstFreeIndex
    rw [hj]
    rfl
  intro e he heq
  have hall : ∀ x ∈ accounts, ¬ x.index = j := by
    simpa using hpj
  exact hall e he (hval ▸ heq)

/-- The kept entries of the erase loop form a sublist of the input. -/
lemma removeRedundantLoop_fst_sublist (act : Option Nat)
    (kept l : List AccountWithIndex) (fb : Config) :
    List.Sublist (removeRedundantLoop act kept l fb).1 (kept ++ l) := by
  induction l generalizing kept fb with
  | nil => simp [removeRedundantLoop]
  | cons e rest ih =>
    rw [removeRedundantLoop]
    split
    · have hk := ih (kept ++ [e]) fb
      rwa [List.append_assoc, List.singleton_append] at hk
    · refine (ih kept _).trans ?_
      exact List.Sublist.append_left (List.sublist_cons_self e rest) kept

/-- `removeRedundantAccounts` only ever erases registry entries. -/
lemma removeRedundantAccounts_accounts_sublist {s s1 : DomainState}
    (h : removeRedundantAccounts s = some s1) :
    List.Sublist s1.accounts s.accounts := by
  unfold removeRedundantAccounts at h
  split at h
  · exact absurd h (by simp)
  · split at h
    · exact absurd h (by simp)
    · rename_i sact hact
      split at h
      · exact absurd h (by simp)
      · rename_i p hp
        have hacts := removePasscodeIfEmpty_accounts_eq
          (show removePasscodeIfEmpty _ = some (p.1, p.2) from by rw [hp])
        have hsub : List.Sublist p.2.accounts s.accounts := by
          rw [hacts]
          have hloop2 := removeRedundantLoop_fst_sublist sact.active []
            sact.accounts sact.fallbackProductionConfig
          rw [List.nil_append] at hloop2
          have hae := activateAuthedAccount_accounts_eq hact
          simp only []
          rw [← hae]
          exact hloop2
        split at h
        · rw [← Option.some.inj h]
          rw [scheduleWriteAccounts_accounts]
          exact hsub
        · rw [← Option.some.inj h]
          exact hsub

/-- Result shape of `add`: the provisioned account is appended at the
freshly allocated index. -/
lemma add_accounts_eq {s : DomainState} {env : Env} {newId : Nat}
    {r : DomainState × Account} (h : add s env newId = some r) :
    r.1.accounts = s.accounts ++ [⟨firstFreeIndex s.accounts, r.2⟩] := by
  unfold add at h
  split at h
  · exact absurd h (by simp)
  · split at h
    · exact absurd h (by simp)
    · cases h; rfl

/-- The registry-mutating operations of claim C2. -/
inductive DomainOp where
  | addAccount (env : Env) (newId : Nat)
  | addedInStorage (e : AccountWithIndex)
  | removeRedundant
deriving DecidableEq, Repr

/-- Apply one operation to the state (`none` = fatal violation). -/
def applyOp (s : DomainState) : DomainOp → Option DomainState
  | .addAccount env newId => (add s env newId).map fun r => r.1
  | .addedInStorage e => accountAddedInStorage s e
  | .removeRedundant => removeRedundantAccounts s

/-- Run a sequence of operations left to right. -/
def runOps (s : DomainState) : List DomainOp → Option DomainState
  | [] => some s
  | op :: rest =>
    match applyOp s op with
    | none => none
    | some s1 => runOps s1 rest

/-- One operation preserves distinctness of the registry indices. -/
lemma applyOp_nodup {s s1 : DomainState} {op : DomainOp}
    (h : applyOp s op = some s1) (hn : (registryIndices s).Nodup) :
    (registryIndices s1).Nodup := by
  cases op with
  | addAccount env newId =>
    simp only [applyOp, Option.map_eq_some'] at h
    obtain ⟨r, hr, hr1⟩ := h
    have hacc := add_accounts_eq hr
    rw [← hr1]
    unfold registryIndices at *
    rw [hacc, List.map_append, List.nodup_append]
    refine ⟨hn, by simp, ?_⟩
    intro a ha hb
    simp only [List.map_cons, List.map_nil, List.mem_singleton] at hb
    subst hb
    obtain ⟨e, he, hei⟩ := List.mem_map.mp ha
    exact firstFreeIndex_not_used s.accounts e he hei
  | addedInStorage e =>
    simp only [applyOp] at h
    unfold accountAddedInStorage at h
    split at h
    · exact absurd h (by simp)
    · rename_i hdup
      cases h
      unfold registryIndices at *
      rw [List.map_append, List.nodup_append]
      refine ⟨hn, by simp, ?_⟩
      intro a ha hb
      simp only [List.map_cons, List.map_nil, List.mem_singleton] at hb
      subst hb
      obtain ⟨x, hx, hxe⟩ := List.mem_map.mp ha
      exact hdup (by
        simp only [List.any_eq_true, decide_eq_true_eq]
        exact ⟨x, hx, hxe⟩)
  | removeRedundant =>
    simp only [applyOp] at h
    have hsub := removeRedundantAccounts_accounts_sublist h
    unfold registryIndices at *
    exact List.Nodup.sublist (hsub.map fun e => e.index) hn

/-- A whole run of operations preserves distinctness of the indices. -/
lemma runOps_nodup {ops : List DomainOp} {s s1 : DomainState}
    (h : runOps s ops = some s1) (hn : (registryIndices s).Nodup) :
    (registryIndices s1).Nodup := by
  induction ops generalizing s with
  | nil =>
    unfold runOps at h
    cases h
    exact hn
  | cons op rest ih =>
    unfold runOps at h
    split at h
    · exact absurd h (by simp)
    · rename_i smid hmid
      exact ih h (applyOp_nodup hmid hn)

/-- C2: along every sequence of `add` / `accountAddedInStorage` /
`removeRedundantAccounts` operations, the live registry indices stay
pairwise distinct at every step (first and second conjuncts: one step and
any whole run), and inserting an entry whose index is already present is a
fatal precondition violation — `accountAddedInStorage` aborts (`none`) on
every such insertion, while `add` cannot choose a used index at all (its
index is checked free against the whole registry by `firstFreeIndex`). -/
theorem registry_index_uniqueness :
    (∀ (s s1 : DomainState) (op : DomainOp), applyOp s op = some s1 →
      (registryIndices s).Nodup → (registryIndices s1).Nodup) ∧
    (∀ (s s1 : DomainState) (ops : List DomainOp), runOps s ops = some s1 →
      (registryIndices s).Nodup → (registryIndices s1).Nodup) ∧
    (∀ (s : DomainState) (e : AccountWithIndex),
      e.index ∈ registryIndices s → accountAddedInStorage s e = none) := by
  refine ⟨fun s s1 op h hn => applyOp_nodup h hn,
    fun s s1 ops h hn => runOps_nodup h hn, ?_⟩
  intro s e he
  have hany : (s.accounts.any fun x => x.index = e.index) = true := by
    simp only [List.any_eq_true, decide_eq_true_eq]
    obtain ⟨x, hx, hxe⟩ := List.mem_map.mp he
    exact ⟨x, hx, hxe⟩
  simp [accountAddedInStorage, hany]

/-- A domain state with the given registry and active pointer and every
counter cleared, used by the concrete instantiations below. -/
def mkState (accounts : List AccountWithIndex) (active : Option Nat) :
    DomainState :=
  { accounts := accounts
    active := active
    accountToActivate := -1
    passcodeSet := false
    localResets := 0
    fallbackProductionConfig := Config.ofEnvironment Env.production
    unreadBadge := 0
    unreadBadgeMuted := true
    unreadBadgeUpdateScheduled := false
    writeAccountsScheduled := false
    pendingBadgeCallbacks := 0
    pendingWriteCallbacks := 0
    activeChangedFired := 0
    unreadBadgeChangedFired := 0
    writeScheduleRequests := 0 }

/-- A production account with the given identity and session liveness. -/
def mkAccount (id : Nat) (live : Bool) : Account :=
  { id := id
    environment := Env.production
    config := Config.ofEnvironment Env.production
    sessionLive := live
    unreadCount := 0
    muted := true }

/-- Witness for C2 at concrete inputs: a one-step run preserving
distinct indices, and a duplicate-index insertion aborting. -/
theorem registry_index_uniqueness_witness :
    (registryIndices (mkState [⟨0, mkAccount 0 false⟩, ⟨1, mkAccount 1 false⟩]
      (some 0))).Nodup ∧
    accountAddedInStorage (mkState [⟨0, mkAccount 0 false⟩] (some 0))
      ⟨0, mkAccount 5 false⟩ = none :=
  ⟨registry_index_uniqueness.1 (mkState [⟨0, mkAccount 0 false⟩] (some 0))
      (mkState [⟨0, mkAccount 0 false⟩, ⟨1, mkAccount 1 false⟩] (some 0))
      (DomainOp.addedInStorage ⟨1, mkAccount 1 false⟩) (by decide) (by decide),
    registry_index_uniqueness.2.2 (mkState [⟨0, mkAccount 0 false⟩] (some 0))
      ⟨0, mkAccount 5 false⟩ (by decide)⟩

/-! ## First-match characterisation of `find?` -/

/-- `find?` returns the entry at position `k` when it satisfies the
predicate and everything before it fails it. -/
lemma find?_eq_of_first {α : Type} (p : α → Bool) (l : List α) (k : Nat)
    (hk : k < l.length) (hpk : p (l.get ⟨k, hk⟩) = true)
    (hbefore : ∀ x ∈ l.take k, p x = false) :
    l.find? p = some (l.get ⟨k, hk⟩) := by
  induction l generalizing k with
  | nil => simp at hk
  | cons a rest ih =>
    cases k with
    | zero =>
      simp only [List.get] at hpk
      simp [List.find?_cons, hpk]
    | succ k2 =>
      have hpa : p a = false := hbefore a (by simp)
      simp only [List.get]
      rw [List.find?_cons, hpa]
      exact ih k2 (by simpa using hk) (by simpa using hpk)
        (fun x hx => hbefore x (by simp [hx]))

/-! ## Activation of the first authenticated account (claim C3) -/

/-- C3: with a non-empty registry and a resolvable active account,
`activateAuthedAccount` is a no-op when the active account has a live
session; otherwise it activates the first registry-order account with a
live session; and when no account has a live session it leaves the state
(in particular the active account) unchanged. -/
theorem activateAuthedAccount_spec (s : DomainState) (act : Account)
    (hne : s.accounts ≠ [])
    (hact : activeAccount s = some act) :
    (act.sessionLive = true → activateAuthedAccount s = some s) ∧
    (act.sessionLive = false →
      ∀ (k : Nat) (hk : k < s.accounts.length),
        (s.accounts.get ⟨k, hk⟩).account.sessionLive = true →
        (∀ x ∈ s.accounts.take k, x.account.sessionLive = false) →
        ∃ s1, activateAuthedAccount s = some s1 ∧
          s1.active = some (s.accounts.get ⟨k, hk⟩).account.id ∧
          s1.accounts = s.accounts) ∧
    (act.sessionLive = false →
      (∀ x ∈ s.accounts, x.account.sessionLive = false) →
      activateAuthedAccount s = some s) := by
  have hst : started s = true := by
    unfold started
    cases hcc : s.accounts with
    | nil => exact absurd hcc hne
    | cons a l => rfl
  refine ⟨?_, ?_, ?_⟩
  · intro h
    simp [activateAuthedAccount, hst, hact, h]
  · intro h k hk hlivek hbefore
    have hfind := find?_eq_of_first (fun e => e.account.sessionLive)
      s.accounts k hk hlivek hbefore
    have heq : activateAuthedAccount s =
        activate s (s.accounts.get ⟨k, hk⟩).account := by
      simp [activateAuthedAccount, hst, hact, h, hfind]
    have hsome : ∃ s1,
        activate s (s.accounts.get ⟨k, hk⟩).account = some s1 := by
      by_cases hcase : s.active = some (s.accounts.get ⟨k, hk⟩).account.id
      · exact ⟨s, by simp [activate, hcase]⟩
      · have hmem := List.get_mem s.accounts k hk
        have hfs : (s.accounts.find? fun x =>
            x.account.id = (s.accounts.get ⟨k, hk⟩).account.id).isSome := by
          rw [List.find?_isSome]
          exact ⟨s.accounts.get ⟨k, hk⟩, hmem, by simp⟩
        obtain ⟨i, hi⟩ := Option.isSome_iff_exists.mp hfs
        exact ⟨_, activate_eq_of_found hcase hi⟩
    obtain ⟨s1, hs1⟩ := hsome
    refine ⟨s1, ?_, activate_active_eq hs1, activate_accounts_eq hs1⟩
    rw [heq]
    exact hs1
  · intro h hall
    have hnone : (s.accounts.find? fun e => e.account.sessionLive) = none :=
      List.find?_eq_none.mpr fun x hx => by simp [hall x hx]
    simp [activateAuthedAccount, hst, hact, h, hnone]

/-- Witness for C3 at a concrete input: active account 0 has no session,
account 1 is the first with a live session and becomes active. -/
theorem activateAuthedAccount_spec_witness :
    ∃ s1, activateAuthedAccount
        (mkState [⟨0, mkAccount 0 false⟩, ⟨1, mkAccount 1 true⟩] (some 0)) =
      some s1 ∧
      s1.active = some 1 ∧
      s1.accounts = [⟨0, mkAccount 0 false⟩, ⟨1, mkAccount 1 true⟩] :=
  (activateAuthedAccount_spec
    (mkState [⟨0, mkAccount 0 false⟩, ⟨1, mkAccount 1 true⟩] (some 0))
    (mkAccount 0 false) (by decide) (by decide)).2.1 rfl 1 (by decide)
    (by decide) (by decide)

/-! ## Activation of a given account (claim C4) -/

/-- C4: `activate` is a no-op when the account is already active; otherwise
(for an account found in the registry) it sets the active reference, fires
the active-changed event exactly once, and calls the persistence scheduler
exactly when the remembered preferred index differs from the new active
account's index. -/
theorem activate_spec (s : DomainState) (a : Account) :
    (s.active = some a.id → activate s a = some s) ∧
    (¬ s.active = some a.id →
      ∀ i, s.accounts.find? (fun e => e.account.id = a.id) = some i →
        ∃ s1, activate s a = some s1 ∧
          s1.active = some a.id ∧
          s1.accountToActivate = (i.index : Int) ∧
          s1.activeChangedFired = s.activeChangedFired + 1 ∧
          s1.accounts = s.accounts ∧
          s1.writeScheduleRequests = s.writeScheduleRequests +
            (if s.accountToActivate ≠ (i.index : Int) then 1 else 0)) := by
  constructor
  · intro h
    simp [activate, h]
  · intro hne i hf
    refine ⟨_, activate_eq_of_found hne hf, ?_⟩
    by_cases hch : s.accountToActivate ≠ (i.index : Int)
    · rw [if_pos hch]
      refine ⟨by simp, by simp, by simp, by simp, ?_⟩
      rw [if_pos hch, scheduleWriteAccounts_requests]
    · rw [if_neg hch]
      push_neg at hch
      exact ⟨rfl, rfl, rfl, rfl, by simp [hch]⟩

/-- Witness for C4 at a concrete input: activating account 7 (index 3)
from a state whose active pointer and preferred index both differ. -/
theorem activate_spec_witness :
    ∃ s1, activate (mkState [⟨3, mkAccount 7 false⟩] (some 9))
        (mkAccount 7 false) = some s1 ∧
      s1.active = some (mkAccount 7 false).id ∧
      s1.accountToActivate =
        (((⟨3, mkAccount 7 false⟩ : AccountWithIndex)).index : Int) ∧
      s1.activeChangedFired =
        (mkState [⟨3, mkAccount 7 false⟩] (some 9)).activeChangedFired + 1 ∧
      s1.accounts = (mkState [⟨3, mkAccount 7 false⟩] (some 9)).accounts ∧
      s1.writeScheduleRequests =
        (mkState [⟨3, mkAccount 7 false⟩] (some 9)).writeScheduleRequests +
          (if (mkState [⟨3, mkAccount 7 false⟩] (some 9)).accountToActivate ≠
              (((⟨3, mkAccount 7 false⟩ : AccountWithIndex)).index : Int)
            then 1 else 0) :=
  (activate_spec (mkState [⟨3, mkAccount 7 false⟩] (some 9))
    (mkAccount 7 false)).2 (by decide) ⟨3, mkAccount 7 false⟩ (by decide)

/-! ## Config provisioning on `add` (claim C5) -/

/-- Resolved form of `add` for a started domain with a resolvable active
account. -/
lemma add_eq_of_active {s : DomainState} {act : Account} {env : Env}
    {newId : Nat} (hst : started s = true)
    (hact : activeAccount s = some act) :
    add s env newId = some (
      { s with accounts := s.accounts ++ [⟨firstFreeIndex s.accounts,
          { id := newId, environment := env
            config := provisionConfig s act env
            sessionLive := false, unreadCount := 0, muted := true }⟩] },
      { id := newId, environment := env
        config := provisionConfig s act env
        sessionLive := false, unreadCount := 0, muted := true }) := by
  simp [add, hst, hact]

/-- C5: the config handed to the account created by `add(environment)`
follows the exact priority of the source: the active account's config when
it uses that environment; else the config of the first registry entry using
it; else the process-wide fallback for production; else a fresh default
config of that environment. -/
theorem add_config_provisioning (s : DomainState) (act : Account) (env : Env)
    (newId : Nat) (hne : s.accounts ≠ [])
    (hact : activeAccount s = some act) :
    ∃ s1 acc, add s env newId = some (s1, acc) ∧
      acc.environment = env ∧
      (act.environment = env → acc.config = act.config) ∧
      (act.environment ≠ env →
        ∀ (k : Nat) (hk : k < s.accounts.length),
          (s.accounts.get ⟨k, hk⟩).account.environment = env →
          (∀ x ∈ s.accounts.take k, x.account.environment ≠ env) →
          acc.config = (s.accounts.get ⟨k, hk⟩).account.config) ∧
      (act.environment ≠ env →
        (∀ x ∈ s.accounts, x.account.environment ≠ env) →
        env = Env.production → acc.config = s.fallbackProductionConfig) ∧
      (act.environment ≠ env →
        (∀ x ∈ s.accounts, x.account.environment ≠ env) →
        env ≠ Env.production → acc.config = Config.ofEnvironment env) := by
  have hst : started s = true := by
    unfold started
    cases hcc : s.accounts with
    | nil => exact absurd hcc hne
    | cons a l => rfl
  refine ⟨_, _, add_eq_of_active hst hact, rfl, ?_, ?_, ?_, ?_⟩
  · intro h
    simp [provisionConfig, h]
  · intro h k hk hkenv hbefore
    have hfind := find?_eq_of_first (fun e => e.account.environment = env)
      s.accounts k hk (by simpa using hkenv)
      (fun x hx => by simpa using hbefore x hx)
    simp [provisionConfig, h, hfind]
  · intro h hall henv
    subst henv
    have hnone : (s.accounts.find? fun e =>
        e.account.environment = Env.production) = none :=
      List.find?_eq_none.mpr fun x hx => by simpa using hall x hx
    simp [provisionConfig, h, hnone]
  · intro h hall henv
    have hnone : (s.accounts.find? fun e =>
        e.account.environment = env) = none :=
      List.find?_eq_none.mpr fun x hx => by simpa using hall x hx
    simp [provisionConfig, h, hnone, henv]

/-- Witness for C5 at a concrete input: adding a production account while
the active account already uses production clones the active account's
config. -/
theorem add_config_provisioning_witness :
    ∃ s1 acc, add (mkState [⟨0, mkAccount 0 false⟩] (some 0))
        Env.production 9 = some (s1, acc) ∧
      acc.config = (mkAccount 0 false).config := by
  obtain ⟨s1, acc, h1, henv, hc1, hrest⟩ :=
    add_config_provisioning (mkState [⟨0, mkAccount 0 false⟩] (some 0))
      (mkAccount 0 false) Env.production 9 (by decide) (by decide)
  exact ⟨s1, acc, h1, hc1 rfl⟩

/-! ## Passcode auto-clear (claims C9 and C10) -/

/-- C9: `removePasscodeIfEmpty` returns `true` and clears the passcode
exactly when a single account remains, it has no live session, and a
passcode is set; with two or more accounts it returns `false` and changes
nothing at all. -/
theorem removePasscodeIfEmpty_spec :
    (∀ (s : DomainState) (i : Nat) (a : Account),
      s.accounts = [⟨i, a⟩] → s.active = some a.id → a.sessionLive = false →
      s.passcodeSet = true →
      removePasscodeIfEmpty s = some (true,
        { s with localResets := s.localResets + 1, passcodeSet := false })) ∧
    (∀ s : DomainState, 2 ≤ s.accounts.length →
      removePasscodeIfEmpty s = some (false, s)) ∧
    (∀ (s s1 : DomainState), removePasscodeIfEmpty s = some (true, s1) →
      s.accounts.length = 1 ∧ s.passcodeSet = true ∧ s1.passcodeSet = false ∧
      ∃ a, activeAccount s = some a ∧ a.sessionLive = false) := by
  refine ⟨?_, ?_, ?_⟩
  · intro s i a hacc hactive hlive hpass
    have hactA : activeAccount s = some a := by
      simp [activeAccount, hactive, hacc, List.find?_cons]
    simp [removePasscodeIfEmpty, hacc, hactA, hlive, hpass]
  · intro s hlen
    have hne1 : s.accounts.length ≠ 1 := by omega
    simp [removePasscodeIfEmpty, hne1]
  · intro s s1 h
    unfold removePasscodeIfEmpty at h
    split at h
    · exact absurd h (by simp)
    · rename_i hlen
      split at h
      · exact absurd h (by simp)
      · rename_i act hactA
        split at h
        · exact absurd h (by simp)
        · rename_i hlive
          split at h
          · exact absurd h (by simp)
          · rename_i hpass
            cases h
            refine ⟨by omega, ?_, rfl, act, hactA, by simpa using hlive⟩
            simpa using hpass

/-- Witness for C9 at a concrete input: one passcode-protected account
without a session. -/
theorem removePasscodeIfEmpty_spec_witness :
    removePasscodeIfEmpty { mkState [⟨0, mkAccount 3 false⟩] (some 3) with
        passcodeSet := true } =
      some (true, { { mkState [⟨0, mkAccount 3 false⟩] (some 3) with
          passcodeSet := true } with
        localResets := { mkState [⟨0, mkAccount 3 false⟩] (some 3) with
            passcodeSet := true }.localResets + 1
        passcodeSet := false }) :=
  removePasscodeIfEmpty_spec.1
    { mkState [⟨0, mkAccount 3 false⟩] (some 3) with passcodeSet := true }
    0 (mkAccount 3 false) (by decide) (by decide) (by decide) (by decide)

/-- C10: with exactly one account and no live session on it,
`removePasscodeIfEmpty` performs the `Local::reset()` side effect before
looking at the passcode, so the reset happens even when no passcode is set
and the call returns `false`. -/
theorem removePasscodeIfEmpty_always_resets (s : DomainState) (i : Nat)
    (a : Account) (hacc : s.accounts = [⟨i, a⟩])
    (hactive : s.active = some a.id) (hlive : a.sessionLive = false) :
    ∃ b s1, removePasscodeIfEmpty s = some (b, s1) ∧
      s1.localResets = s.localResets + 1 ∧
      (s.passcodeSet = false → b = false ∧ s1.passcodeSet = false) := by
  have hactA : activeAccount s = some a := by
    simp [activeAccount, hactive, hacc, List.find?_cons]
  by_cases hp : s.passcodeSet
  · refine ⟨true, { s with
        localResets := s.localResets + 1
        passcodeSet := false }, ?_, rfl,
      fun hps => absurd hp (by simp [hps])⟩
    simp [removePasscodeIfEmpty, hacc, hactA, hlive, hp]
  · refine ⟨false, { s with localResets := s.localResets + 1 }, ?_, rfl,
      fun hps => ⟨rfl, by simpa using hp⟩⟩
    simp [removePasscodeIfEmpty, hacc, hactA, hlive, eq_false hp]

/-- Witness for C10 at a concrete input: one account, no session, no
passcode — the local reset still happens and the call returns `false`. -/
theorem removePasscodeIfEmpty_always_resets_witness :
    ∃ b s1, removePasscodeIfEmpty
        (mkState [⟨0, mkAccount 3 false⟩] (some 3)) = some (b, s1) ∧
      s1.localResets =
        (mkState [⟨0, mkAccount 3 false⟩] (some 3)).localResets + 1 ∧
      ((mkState [⟨0, mkAccount 3 false⟩] (some 3)).passcodeSet = false →
        b = false ∧ s1.passcodeSet = false) :=
  removePasscodeIfEmpty_always_resets
    (mkState [⟨0, mkAccount 3 false⟩] (some 3)) 0 (mkAccount 3 false)
    (by decide) (by decide) (by decide)

/-! ## Debounced badge recompute (claim C8) -/

/-- Deliver a burst of badge-triggering events within one scheduler turn:
each event leaves the registry in a given snapshot state and calls
`scheduleUpdateUnreadBadge` (as the per-session subscription in
`watchSession` does). -/
def deliverBadgeEvents (s : DomainState) :
    List (List AccountWithIndex) → DomainState
  | [] => s
  | snap :: rest =>
    deliverBadgeEvents
      (scheduleUpdateUnreadBadge { s with accounts := snap }) rest

/-- With the latch already set, delivering more events only moves the
registry along: nothing else of the state changes. -/
lemma deliverBadgeEvents_scheduled {s : DomainState}
    (evs : List (List AccountWithIndex))
    (h : s.unreadBadgeUpdateScheduled = true) :
    deliverBadgeEvents s evs =
      { s with accounts := evs.getLastD s.accounts } := by
  induction evs generalizing s with
  | nil => rfl
  | cons snap rest ih =>
    rw [deliverBadgeEvents]
    have hsch : scheduleUpdateUnreadBadge { s with accounts := snap } =
        { s with accounts := snap } := by
      simp [scheduleUpdateUnreadBadge, h]
    rw [hsch, ih (s := { s with accounts := snap }) h]
    rw [List.getLastD_cons]

/-- A burst starting from a clear latch: the first event sets the latch and
queues one callback, the remaining events are absorbed. -/
lemma deliverBadgeEvents_cons {s : DomainState}
    (snap : List AccountWithIndex) (rest : List (List AccountWithIndex))
    (h : s.unreadBadgeUpdateScheduled = false) :
    deliverBadgeEvents s (snap :: rest) =
      { s with
        accounts := rest.getLastD snap
        unreadBadgeUpdateScheduled := true
        pendingBadgeCallbacks := s.pendingBadgeCallbacks + 1 } := by
  rw [deliverBadgeEvents]
  have hsch : scheduleUpdateUnreadBadge { s with accounts := snap } =
      { s with
        accounts := snap
        unreadBadgeUpdateScheduled := true
        pendingBadgeCallbacks := s.pendingBadgeCallbacks + 1 } := by
    simp [scheduleUpdateUnreadBadge, h]
  rw [hsch, deliverBadgeEvents_scheduled rest rfl]

/-- C8: any burst of `N ≥ 1` badge triggers delivered before the deferred
body runs queues exactly one recompute callback and fires no change event
yet; running that single callback performs exactly one recompute, over the
registry as of the last trigger, and leaves the latch clear with no queued
callback — so one further trigger during or after the body queues exactly
one fresh follow-up. -/
theorem scheduleUpdateUnreadBadge_debounce (s : DomainState)
    (snap : List AccountWithIndex) (rest : List (List AccountWithIndex))
    (h1 : s.unreadBadgeUpdateScheduled = false)
    (h2 : s.pendingBadgeCallbacks = 0) :
    (deliverBadgeEvents s (snap :: rest)).pendingBadgeCallbacks = 1 ∧
    (deliverBadgeEvents s (snap :: rest)).unreadBadgeUpdateScheduled = true ∧
    (deliverBadgeEvents s (snap :: rest)).unreadBadgeChangedFired =
      s.unreadBadgeChangedFired ∧
    (deliverBadgeEvents s (snap :: rest)).accounts = rest.getLastD snap ∧
    (runBadgeCallback (deliverBadgeEvents s
      (snap :: rest))).unreadBadgeChangedFired =
        s.unreadBadgeChangedFired + 1 ∧
    (runBadgeCallback (deliverBadgeEvents s (snap :: rest))).unreadBadge =
      (unreadBadgeLoop (rest.getLastD snap) 0 true).1 ∧
    (runBadgeCallback (deliverBadgeEvents s
      (snap :: rest))).unreadBadgeMuted =
        (unreadBadgeLoop (rest.getLastD snap) 0 true).2 ∧
    (runBadgeCallback (deliverBadgeEvents s
      (snap :: rest))).pendingBadgeCallbacks = 0 ∧
    (runBadgeCallback (deliverBadgeEvents s
      (snap :: rest))).unreadBadgeUpdateScheduled = false ∧
    (scheduleUpdateUnreadBadge (runBadgeCallback (deliverBadgeEvents s
      (snap :: rest)))).pendingBadgeCallbacks = 1 := by
  rw [deliverBadgeEvents_cons snap rest h1]
  refine ⟨by simp [h2], rfl, rfl, rfl, ?_, ?_, ?_, ?_, ?_, ?_⟩
  all_goals
    simp [runBadgeCallback, updateUnreadBadge, scheduleUpdateUnreadBadge, h2]

/-- Witness for C8 at a concrete input: two triggers in one turn, the
second with a different registry snapshot. -/
theorem scheduleUpdateUnreadBadge_debounce_witness :
    (deliverBadgeEvents (mkState [] none)
      ([⟨0, mkAccount 0 true⟩] ::
        [[⟨0, { mkAccount 0 true with unreadCount := 5 }⟩]])).pendingBadgeCallbacks = 1 ∧
    (deliverBadgeEvents (mkState [] none)
      ([⟨0, mkAccount 0 true⟩] ::
        [[⟨0, { mkAccount 0 true with unreadCount := 5 }⟩]])).unreadBadgeUpdateScheduled = true ∧
    (deliverBadgeEvents (mkState [] none)
      ([⟨0, mkAccount 0 true⟩] ::
        [[⟨0, { mkAccount 0 true with unreadCount := 5 }⟩]])).unreadBadgeChangedFired =
      (mkState [] none).unreadBadgeChangedFired ∧
    (deliverBadgeEvents (mkState [] none)
      ([⟨0, mkAccount 0 true⟩] ::
        [[⟨0, { mkAccount 0 true with unreadCount := 5 }⟩]])).accounts =
      [[⟨0, { mkAccount 0 true with unreadCount := 5 }⟩]].getLastD
        [⟨0, mkAccount 0 true⟩] ∧
    (runBadgeCallback (deliverBadgeEvents (mkState [] none)
      ([⟨0, mkAccount 0 true⟩] ::
        [[⟨0, { mkAccount 0 true with unreadCount := 5 }⟩]]))).unreadBadgeChangedFired =
      (mkState [] none).unreadBadgeChangedFired + 1 ∧
    (runBadgeCallback (deliverBadgeEvents (mkState [] none)
      ([⟨0, mkAccount 0 true⟩] ::
        [[⟨0, { mkAccount 0 true with unreadCount := 5 }⟩]]))).unreadBadge =
      (unreadBadgeLoop ([[⟨0, { mkAccount 0 true with unreadCount := 5 }⟩]].getLastD
        [⟨0, mkAccount 0 true⟩]) 0 true).1 ∧
    (runBadgeCallback (deliverBadgeEvents (mkState [] none)
      ([⟨0, mkAccount 0 true⟩] ::
        [[⟨0, { mkAccount 0 true with unreadCount := 5 }⟩]]))).unreadBadgeMuted =
      (unreadBadgeLoop ([[⟨0, { mkAccount 0 true with unreadCount := 5 }⟩]].getLastD
        [⟨0, mkAccount 0 true⟩]) 0 true).2 ∧
    (runBadgeCallback (deliverBadgeEvents (mkState [] none)
      ([⟨0, mkAccount 0 true⟩] ::
        [[⟨0, { mkAccount 0 true with unreadCount := 5 }⟩]]))).pendingBadgeCallbacks = 0 ∧
    (runBadgeCallback (deliverBadgeEvents (mkState [] none)
      ([⟨0, mkAccount 0 true⟩] ::
        [[⟨0, { mkAccount 0 true with unreadCount := 5 }⟩]]))).unreadBadgeUpdateScheduled = false ∧
    (scheduleUpdateUnreadBadge (runBadgeCallback (deliverBadgeEvents
      (mkState [] none)
      ([⟨0, mkAccount 0 true⟩] ::
        [[⟨0, { mkAccount 0 true with unreadCount := 5 }⟩]])))).pendingBadgeCallbacks = 1 :=
  scheduleUpdateUnreadBadge_debounce (mkState [] none)
    [⟨0, mkAccount 0 true⟩]
    [[⟨0, { mkAccount 0 true with unreadCount := 5 }⟩]] rfl rfl

/-! ## Last-production-config preservation (claim C6) -/

/-- Eliminate a resolved `activeAccount`: the active pointer holds an id
whose first registry entry carries the resolved account. -/
lemma activeAccount_elim {s : DomainState} {act : Account}
    (h : activeAccount s = some act) :
    ∃ aid f, s.active = some aid ∧
      s.accounts.find? (fun e => e.account.id = aid) = some f ∧
      f.account = act := by
  unfold activeAccount at h
  cases ha : s.active with
  | none => rw [ha] at h; simp at h
  | some aid =>
    rw [ha] at h
    rw [Option.some_bind] at h
    cases hf : s.accounts.find? fun e => e.account.id = aid with
    | none => rw [hf] at h; simp at h
    | some f =>
      rw [hf] at h
      simp only [Option.map_some', Option.some.injEq] at h
      exact ⟨aid, f, rfl, hf, h⟩

/-- When no entry of the remaining walk targets production, the erase loop
never touches the fallback config. -/
lemma removeRedundantLoop_fallback_nonprod (act : Option Nat)
    (kept l : List AccountWithIndex) (fb : Config)
    (h : ∀ e ∈ l, e.account.environment ≠ Env.production) :
    (removeRedundantLoop act kept l fb).2 = fb := by
  induction l generalizing kept fb with
  | nil => rfl
  | cons e rest ih =>
    rw [removeRedundantLoop]
    split
    · exact ih (kept ++ [e]) fb fun x hx => h x (List.mem_cons_of_mem e hx)
    · have hcheck : checkForLastProductionConfig (kept ++ e :: rest) fb
          e.account = fb := by
        unfold checkForLastProductionConfig
        rw [if_pos (h e (List.mem_cons_self e rest))]
      rw [hcheck]
      exact ih kept _ fun x hx => h x (List.mem_cons_of_mem e hx)

/-- Any entry of the loop result was either already kept or survives
because it is active or has a live session. -/
lemma removeRedundantLoop_mem {act : Option Nat}
    {kept l : List AccountWithIndex} {fb : Config} {x : AccountWithIndex}
    (hx : x ∈ (removeRedundantLoop act kept l fb).1) :
    x ∈ kept ∨ (x ∈ l ∧
      (act = some x.account.id ∨ x.account.sessionLive = true)) := by
  induction l generalizing kept fb with
  | nil => exact Or.inl hx
  | cons e rest ih =>
    rw [removeRedundantLoop] at hx
    split at hx
    · rename_i hcond
      rcases ih hx with hk | hrest
      · rcases List.mem_append.mp hk with hk1 | hk2
        · exact Or.inl hk1
        · simp only [List.mem_singleton] at hk2
          subst hk2
          refine Or.inr ⟨List.mem_cons_self x rest, ?_⟩
          simpa using hcond
      · exact Or.inr ⟨List.mem_cons_of_mem e hrest.1, hrest.2⟩
    · rcases ih hx with hk | hrest
      · exact Or.inl hk
      · exact Or.inr ⟨List.mem_cons_of_mem e hrest.1, hrest.2⟩

/-- An entry that is active or has a live session is kept by the loop. -/
lemma removeRedundantLoop_keeps {act : Option Nat} {x : AccountWithIndex}
    (hcond : act = some x.account.id ∨ x.account.sessionLive = true) :
    ∀ (kept l : List AccountWithIndex) (fb : Config), x ∈ kept ++ l →
      x ∈ (removeRedundantLoop act kept l fb).1 := by
  intro kept l
  induction l generalizing kept with
  | nil =>
    intro fb hx
    rw [removeRedundantLoop]
    simpa using hx
  | cons e rest ih =>
    intro fb hx
    rw [removeRedundantLoop]
    split
    · apply ih (kept ++ [e])
      simp only [List.mem_append, List.mem_cons, List.mem_singleton] at hx ⊢
      tauto
    · rename_i hcondneg
      apply ih kept
      have hxe : x ≠ e := by
        intro heq
        subst heq
        rcases hcond with h1 | h1 <;> simp [h1] at hcondneg
      simp only [List.mem_append, List.mem_cons] at hx ⊢
      rcases hx with h1 | h2 | h3
      · exact Or.inl h1
      · exact absurd h2 hxe
      · exact Or.inr h3

/-- The key fallback property of the erase loop: when the walk still
contains a production account `ea` that will be removed, and every other
entry anywhere (already kept or still to visit) is non-production, the
loop ends with the fallback set to `ea`'s config. -/
lemma removeRedundantLoop_fallback_push (act : Option Nat)
    (l1 : List AccountWithIndex) (ea : AccountWithIndex)
    (hprod : ea.account.environment = Env.production)
    (hnact : ¬ act = some ea.account.id)
    (hnlive : ea.account.sessionLive = false) :
    ∀ (kept l2 : List AccountWithIndex) (fb : Config),
      (∀ e ∈ kept, e.account.environment ≠ Env.production) →
      (∀ e ∈ l1, e.account.environment ≠ Env.production) →
      (∀ e ∈ l2, e.account.environment ≠ Env.production) →
      (removeRedundantLoop act kept (l1 ++ ea :: l2) fb).2 =
        ea.account.config := by
  induction l1 with
  | nil =>
    intro kept l2 fb hkept hl1 hl2
    rw [List.nil_append, removeRedundantLoop]
    split
    · rename_i hcond
      exfalso
      simp only [Bool.or_eq_true, decide_eq_true_eq, hnlive] at hcond
      rcases hcond with h1 | h1
      · exact hnact h1
      · exact absurd h1 (by simp)
    · have hcheck : checkForLastProductionConfig (kept ++ ea :: l2) fb
          ea.account = ea.account.config := by
        unfold checkForLastProductionConfig
        rw [if_neg (by simp [hprod])]
        have hany : ((kept ++ ea :: l2).any fun e =>
            e.account.id ≠ ea.account.id &&
              e.account.environment = Env.production) = false := by
          rw [List.any_eq_false]
          intro x hx
          rcases List.mem_append.mp hx with hxk | hxc
          · simp [hkept x hxk]
          · rcases List.mem_cons.mp hxc with heq | hx2
            · subst heq; simp
            · simp [hl2 x hx2]
        simp only [hany, Bool.false_eq_true, if_false]
      rw [hcheck]
      exact removeRedundantLoop_fallback_nonprod act kept l2
        ea.account.config hl2
  | cons e l1r ih =>
    intro kept l2 fb hkept hl1 hl2
    have henv := hl1 e (List.mem_cons_self e l1r)
    rw [List.cons_append, removeRedundantLoop]
    split
    · refine ih (kept ++ [e]) l2 fb ?_ ?_ hl2
      · intro x hx
        rcases List.mem_append.mp hx with h1 | h2
        · exact hkept x h1
        · simp only [List.mem_singleton] at h2
          subst h2
          exact henv
      · exact fun x hx => hl1 x (List.mem_cons_of_mem e hx)
    · have hcheck : checkForLastProductionConfig
          (kept ++ e :: (l1r ++ ea :: l2)) fb e.account = fb := by
        unfold checkForLastProductionConfig
        rw [if_pos henv]
      rw [hcheck]
      exact ih kept l2 fb hkept
        (fun x hx => hl1 x (List.mem_cons_of_mem e hx)) hl2

/-- `removePasscodeIfEmpty` does nothing while the active account has a
live session. -/
lemma removePasscodeIfEmpty_noop_of_live {t : DomainState} {act : Account}
    (hactt : activeAccount t = some act) (hlive : act.sessionLive = true) :
    removePasscodeIfEmpty t = some (false, t) := by
  by_cases hlen : t.accounts.length ≠ 1
  · simp [removePasscodeIfEmpty, hlen]
  · simp [removePasscodeIfEmpty, hlen, hactt, hlive]

/-- Resolving the active pointer after swapping out the registry and the
fallback config. -/
lemma activeAccount_update {s : DomainState}
    {newAccounts : List AccountWithIndex} {v : Config} {aid : Nat}
    {g : AccountWithIndex} (hsa : s.active = some aid)
    (hg : newAccounts.find? (fun e => e.account.id = aid) = some g) :
    activeAccount { s with
      accounts := newAccounts
      fallbackProductionConfig := v } = some g.account := by
  unfold activeAccount
  simp [hsa, hg]

/-- Resolved form of `removeRedundantAccounts` when the activation pass is
a no-op and the passcode check resolves. -/
lemma removeRedundantAccounts_eq_cases {s t : DomainState}
    {p : Bool × DomainState} (hst : started s = true)
    (haa : activateAuthedAccount s = some t)
    (hrp : removePasscodeIfEmpty { t with
      accounts := (removeRedundantLoop t.active [] t.accounts
        t.fallbackProductionConfig).1
      fallbackProductionConfig := (removeRedundantLoop t.active [] t.accounts
        t.fallbackProductionConfig).2 } = some p) :
    removeRedundantAccounts s =
      some (if !p.1 && p.2.accounts.length ≠ s.accounts.length
        then scheduleWriteAccounts p.2 else p.2) := by
  unfold removeRedundantAccounts
  rw [if_neg (by simp [hst])]
  simp only [haa, hrp]
  split <;> rfl

/-- C6: `checkForLastProductionConfig` pushes the config of a production
account to the process-wide fallback exactly when no other registry member
targets production (first three conjuncts: push, other-production present,
non-production).  Last conjunct: inside a `removeRedundantAccounts` run
that removes a production account `ea` while no other registry account
targets production, the fallback ends up holding `ea`'s config — pushed
while `ea` was still in the registry — and `ea` is gone afterwards. -/
theorem checkForLastProductionConfig_spec :
    (∀ (accounts : List AccountWithIndex) (fb : Config) (a : Account),
      a.environment = Env.production →
      (∀ e ∈ accounts, e.account.id ≠ a.id →
        e.account.environment ≠ Env.production) →
      checkForLastProductionConfig accounts fb a = a.config) ∧
    (∀ (accounts : List AccountWithIndex) (fb : Config) (a : Account)
      (e : AccountWithIndex), e ∈ accounts → e.account.id ≠ a.id →
      e.account.environment = Env.production →
      checkForLastProductionConfig accounts fb a = fb) ∧
    (∀ (accounts : List AccountWithIndex) (fb : Config) (a : Account),
      a.environment ≠ Env.production →
      checkForLastProductionConfig accounts fb a = fb) ∧
    (∀ (s : DomainState) (act : Account) (ea : AccountWithIndex),
      activeAccount s = some act → act.sessionLive = true →
      ea ∈ s.accounts → ea.account.sessionLive = false →
      ea.account.environment = Env.production →
      ea.account.id ≠ act.id →
      (∀ e ∈ s.accounts, e.account.id ≠ ea.account.id →
        e.account.environment ≠ Env.production) →
      (s.accounts.map fun e => e.account.id).Nodup →
      ∃ s1, removeRedundantAccounts s = some s1 ∧
        s1.fallbackProductionConfig = ea.account.config ∧
        ea ∉ s1.accounts) := by
  refine ⟨?_, ?_, ?_, ?_⟩
  · intro accounts fb a hprod hother
    unfold checkForLastProductionConfig
    rw [if_neg (by simp [hprod])]
    have hany : (accounts.any fun e =>
        e.account.id ≠ a.id && e.account.environment = Env.production)
          = false := by
      rw [List.any_eq_false]
      intro x hx
      by_cases hid : x.account.id = a.id
      · simp [hid]
      · simp [hid, hother x hx hid]
    have hcond : ¬ ((accounts.any fun e =>
        e.account.id ≠ a.id && e.account.environment = Env.production)
          = true) := by
      rw [hany]
      simp
    rw [if_neg hcond]
  · intro accounts fb a e he hid henv
    unfold checkForLastProductionConfig
    by_cases hprod : a.environment ≠ Env.production
    · rw [if_pos hprod]
    · rw [if_neg hprod]
      have hany : (accounts.any fun x =>
          x.account.id ≠ a.id && x.account.environment = Env.production)
            = true := by
        rw [List.any_eq_true]
        exact ⟨e, he, by simp [hid, henv]⟩
      rw [if_pos hany]
  · intro accounts fb a hprod
    unfold checkForLastProductionConfig
    rw [if_pos hprod]
  · intro s act ea hact hlive hea hnlive hprod hidne hother hids
    obtain ⟨aid, f, hsa, hf, hfact⟩ := activeAccount_elim hact
    have hfid : f.account.id = aid := by
      have hps := List.find?_some hf
      simpa using hps
    have hactid : act.id = aid := by rw [← hfact]; exact hfid
    have hstarted : started s = true := by
      unfold started
      cases hcc : s.accounts with
      | nil => rw [hcc] at hea; simp at hea
      | cons x l => rfl
    have haa : activateAuthedAccount s = some s := by
      simp [activateAuthedAccount, hstarted, hact, hlive]
    obtain ⟨l1, l2, hsplit⟩ := List.append_of_mem hea
    have hids1 : ((l1.map fun e => e.account.id) ++
        (ea.account.id :: l2.map fun e => e.account.id)).Nodup := by
      have h0 : ((l1 ++ ea :: l2).map fun e => e.account.id).Nodup := by
        rw [← hsplit]; exact hids
      simpa [List.map_append] using h0
    rw [List.nodup_append] at hids1
    have hl1ne : ∀ x ∈ l1, x.account.id ≠ ea.account.id := by
      intro x hx heq
      exact hids1.2.2 (List.mem_map_of_mem _ hx)
        (by rw [heq]; exact List.mem_cons_self _ _)
    have hl2ne : ∀ x ∈ l2, x.account.id ≠ ea.account.id := by
      intro x hx heq
      have hcons := hids1.2.1
      rw [List.nodup_cons] at hcons
      exact hcons.1 (by rw [← heq]; exact List.mem_map_of_mem _ hx)
    have hl1env : ∀ x ∈ l1, x.account.environment ≠ Env.production :=
      fun x hx => hother x
        (by rw [hsplit]; exact List.mem_append.mpr (Or.inl hx)) (hl1ne x hx)
    have hl2env : ∀ x ∈ l2, x.account.environment ≠ Env.production :=
      fun x hx => hother x
        (by rw [hsplit]
            exact List.mem_append.mpr (Or.inr (List.mem_cons_of_mem ea hx)))
        (hl2ne x hx)
    have hnact2 : ¬ s.active = some ea.account.id := by
      rw [hsa]
      intro hcontra
      have haid : aid = ea.account.id := by simpa using hcontra
      exact hidne ((hactid.trans haid).symm)
    have hfb : (removeRedundantLoop s.active [] s.accounts
        s.fallbackProductionConfig).2 = ea.account.config := by
      rw [hsplit]
      exact removeRedundantLoop_fallback_push s.active l1 ea hprod hnact2
        hnlive [] l2 s.fallbackProductionConfig (by simp) hl1env hl2env
    have hneq : ea ∉ (removeRedundantLoop s.active [] s.accounts
        s.fallbackProductionConfig).1 := by
      intro hin
      rcases removeRedundantLoop_mem hin with hk | hc
      · simp at hk
      · rcases hc.2 with h1 | h1
        · exact hnact2 h1
        · rw [hnlive] at h1
          exact absurd h1 (by simp)
    have hfkeep : f ∈ (removeRedundantLoop s.active [] s.accounts
        s.fallbackProductionConfig).1 := by
      apply removeRedundantLoop_keeps (Or.inl (by rw [hsa, hfid]))
      simpa using List.mem_of_find?_eq_some hf
    have hsome2 : ((removeRedundantLoop s.active [] s.accounts
        s.fallbackProductionConfig).1.find? fun e =>
          e.account.id = aid).isSome := by
      rw [List.find?_isSome]
      exact ⟨f, hfkeep, by simp [hfid]⟩
    obtain ⟨g, hg⟩ := Option.isSome_iff_exists.mp hsome2
    have hgid : g.account.id = aid := by
      have hps := List.find?_some hg
      simpa using hps
    have hgmem : g ∈ s.accounts := by
      have hsubl := removeRedundantLoop_fst_sublist s.active [] s.accounts
        s.fallbackProductionConfig
      rw [List.nil_append] at hsubl
      exact hsubl.subset (List.mem_of_find?_eq_some hg)
    have hfmem : f ∈ s.accounts := List.mem_of_find?_eq_some hf
    have hgf : g = f :=
      List.inj_on_of_nodup_map hids hgmem hfmem (by rw [hgid, hfid])
    have hact2 := activeAccount_update
      (v := (removeRedundantLoop s.active [] s.accounts
        s.fallbackProductionConfig).2) hsa hg
    rw [hgf, hfact] at hact2
    have hrp := removePasscodeIfEmpty_noop_of_live hact2 hlive
    have hmain := removeRedundantAccounts_eq_cases hstarted haa hrp
    refine ⟨_, hmain, ?_, ?_⟩
    · split
      · rw [scheduleWriteAccounts_fallback]
        exact hfb
      · exact hfb
    · split
      · rw [scheduleWriteAccounts_accounts]
        exact hneq
      · exact hneq

/-- A test-environment account with a live session (used as the surviving
active account in the C6 witness). -/
def wTestLive : Account :=
  { id := 0
    environment := Env.test
    config := Config.ofEnvironment Env.test
    sessionLive := true
    unreadCount := 0
    muted := true }

/-- The last production account, logged out, with a recognisable config. -/
def wProdGone : Account :=
  { id := 1
    environment := Env.production
    config := { environment := Env.production, payload := 42 }
    sessionLive := false
    unreadCount := 0
    muted := true }

/-- Witness for C6 at a concrete input: removing the only production
account pushes its config (payload 42) to the fallback. -/
theorem checkForLastProductionConfig_spec_witness :
    ∃ s1, removeRedundantAccounts
        (mkState [⟨0, wTestLive⟩, ⟨1, wProdGone⟩] (some 0)) = some s1 ∧
      s1.fallbackProductionConfig =
        (⟨1, wProdGone⟩ : AccountWithIndex).account.config ∧
      (⟨1, wProdGone⟩ : AccountWithIndex) ∉ s1.accounts :=
  checkForLastProductionConfig_spec.2.2.2
    (mkState [⟨0, wTestLive⟩, ⟨1, wProdGone⟩] (some 0)) wTestLive
    ⟨1, wProdGone⟩ (by decide) (by decide) (by decide) (by decide)
    (by decide) (by decide) (by decide) (by decide)

/-! ## Redundancy cleanup (claim C1) -/

/-- The claimed outcome of the C1 scenario is false on the code: with
A(active, no session), B(no session), C(live session), the run does *not*
leave `[A, C]` with A active — `activateAuthedAccount` switches activation
to C first, so A is removed as well. -/
theorem removeRedundantAccounts_cleanup_cex :
    ((removeRedundantAccounts
        (mkState [⟨0, mkAccount 0 false⟩, ⟨1, mkAccount 1 false⟩,
          ⟨2, mkAccount 2 true⟩] (some 0))).map
      fun s1 => (s1.accounts.map fun e => e.account.id, s1.active)) ≠
      some ([0, 2], some 0) := by decide

/-- Common final stage of the C1 scenario: once activation has moved to C,
the removal pass erases A and B and keeps C active. -/
lemma removeRedundant_from_activated {s t : DomainState} (iA iB iC : Nat)
    (a b c : Account)
    (hst : started s = true)
    (haa : activateAuthedAccount s = some t)
    (hta : t.active = some c.id)
    (htacc : t.accounts = [⟨iA, a⟩, ⟨iB, b⟩, ⟨iC, c⟩])
    (ha : a.sessionLive = false) (hb : b.sessionLive = false)
    (hc : c.sessionLive = true)
    (hca : ¬ c.id = a.id) (hcb : ¬ c.id = b.id) :
    ∃ s1, removeRedundantAccounts s = some s1 ∧
      s1.accounts = [⟨iC, c⟩] ∧ s1.active = some c.id := by
  have hloop1 : (removeRedundantLoop t.active [] t.accounts
      t.fallbackProductionConfig).1 = [⟨iC, c⟩] := by
    rw [hta, htacc]
    simp [removeRedundantLoop, hca, hcb, ha, hb, hc]
  have hfind2 : ((removeRedundantLoop t.active [] t.accounts
      t.fallbackProductionConfig).1.find? fun e =>
        e.account.id = c.id) = some ⟨iC, c⟩ := by
    rw [hloop1]
    simp
  have hact2 := activeAccount_update (s := t)
    (v := (removeRedundantLoop t.active [] t.accounts
      t.fallbackProductionConfig).2) hta hfind2
  have hrp := removePasscodeIfEmpty_noop_of_live hact2 hc
  have hmain := removeRedundantAccounts_eq_cases hst haa hrp
  refine ⟨_, hmain, ?_, ?_⟩
  · split
    · rw [scheduleWriteAccounts_accounts]
      exact hloop1
    · exact hloop1
  · split
    · rw [scheduleWriteAccounts_active]
      exact hta
    · exact hta

/-- C1 (amended): with accounts A(active, session none), B(session none),
C(session live) — all distinct — `removeRedundantAccounts()` first switches
activation to C (the first account with a live session) and then removes
*both* A and B, leaving only C in the registry, with C active. -/
theorem removeRedundantAccounts_cleanup (s : DomainState) (iA iB iC : Nat)
    (a b c : Account)
    (hacc : s.accounts = [⟨iA, a⟩, ⟨iB, b⟩, ⟨iC, c⟩])
    (hactive : s.active = some a.id)
    (ha : a.sessionLive = false) (hb : b.sessionLive = false)
    (hc : c.sessionLive = true)
    (hab : a.id ≠ b.id) (hac : a.id ≠ c.id) (hbc : b.id ≠ c.id) :
    ∃ s1, removeRedundantAccounts s = some s1 ∧
      s1.accounts = [⟨iC, c⟩] ∧ s1.active = some c.id := by
  have hst : started s = true := by
    unfold started
    rw [hacc]
    rfl
  have hca : ¬ c.id = a.id := fun h => hac h.symm
  have hcb : ¬ c.id = b.id := fun h => hbc h.symm
  have hactA : activeAccount s = some a := by
    unfold activeAccount
    rw [hactive, Option.some_bind, hacc]
    simp
  have hfindLive : (s.accounts.find? fun e => e.account.sessionLive) =
      some ⟨iC, c⟩ := by
    rw [hacc]
    simp [ha, hb, hc]
  have haaeq : activateAuthedAccount s = activate s c := by
    simp [activateAuthedAccount, hst, hactA, ha, hfindLive]
  have hne : ¬ s.active = some c.id := by
    rw [hactive]
    simp [hac]
  have hfc : (s.accounts.find? fun e => e.account.id = c.id) =
      some ⟨iC, c⟩ := by
    rw [hacc]
    simp [hac, hbc]
  have hacteq := activate_eq_of_found hne hfc
  by_cases hch : s.accountToActivate ≠
      (((⟨iC, c⟩ : AccountWithIndex)).index : Int)
  · rw [if_pos hch] at hacteq
    refine removeRedundant_from_activated iA iB iC a b c
      hst (t := scheduleWriteAccounts
      { s with
        accountToActivate := (((⟨iC, c⟩ : AccountWithIndex)).index : Int)
        active := some c.id
        activeChangedFired := s.activeChangedFired + 1 })
      (by rw [haaeq]; exact hacteq) (by simp) (by simp [hacc])
      ha hb hc hca hcb
  · rw [if_neg hch] at hacteq
    refine removeRedundant_from_activated iA iB iC a b c
      hst (t :=
      { s with
        accountToActivate := (((⟨iC, c⟩ : AccountWithIndex)).index : Int)
        active := some c.id
        activeChangedFired := s.activeChangedFired + 1 })
      (by rw [haaeq]; exact hacteq) rfl (by simp [hacc])
      ha hb hc hca hcb

/-- Witness for the amended C1 at a concrete input. -/
theorem removeRedundantAccounts_cleanup_witness :
    ∃ s1, removeRedundantAccounts
        (mkState [⟨0, mkAccount 0 false⟩, ⟨1, mkAccount 1 false⟩,
          ⟨2, mkAccount 2 true⟩] (some 0)) = some s1 ∧
      s1.accounts = [⟨2, mkAccount 2 true⟩] ∧
      s1.active = some (mkAccount 2 true).id :=
  removeRedundantAccounts_cleanup
    (mkState [⟨0, mkAccount 0 false⟩, ⟨1, mkAccount 1 false⟩,
      ⟨2, mkAccount 2 true⟩] (some 0)) 0 1 2
    (mkAccount 0 false) (mkAccount 1 false) (mkAccount 2 true)
    (by decide) (by decide) (by decide) (by decide) (by decide)
    (by decide) (by decide) (by decide)
